import Mathlib

/-!
Verification development for the `ThreadTiming` module of
`src/mandelbrot_threads/thread_timing.cpp` (the `ENABLE_THREAD_TIMING` build).

Embedding choices:
* C++ `int` is embedded as `Int`, `std::string` as `String`,
  `std::vector<Sample>` as `List Sample`.
* C++ `double` values are embedded as rationals `ℚ`.  Two arithmetic
  layers are used: `mkSample` computes the recorded fields with exact
  rational arithmetic, and `mkSampleFP` computes them as the hardware
  does, with each `double` operation being the exact rational operation
  followed by `fl`, rounding to the nearest IEEE-754 binary64 value
  (round to nearest, ties to even, normal range).
* The file system is an explicit environment `FileEnv`: the current byte
  content of the output file (as a list of lines, `none` = file does not
  exist), whether `fopen(path, "r")` succeeds on an existing file, and
  whether `fopen(path, "a")` succeeds.  `endRun` returns an `EndRunEffect`
  describing the state after the call and the observable file effects.
* The mutex serialises all operations, so the sequential small-step
  semantics below is the behaviour of any interleaving of whole calls.
-/

namespace ThreadTiming

/-- One timing observation, as built and stored by `recordSample`
(fields as in `struct Sample` of the source). -/
structure Sample where
  threadId : Int
  startMs : ℚ
  endMs : ℚ
  durationMs : ℚ
  deriving DecidableEq

/-- The process-wide recorder state (`struct GlobalState` of the source,
minus the mutex, which only serialises calls). -/
structure GlobalState where
  runId : Int
  numThreads : Int
  runCounter : Int
  label : String
  outputPath : String
  samples : List Sample
  deriving DecidableEq

/-- The zero-initialised singleton produced by `state()` on first use:
ints are value-initialised to `0`, strings to `""` except
`outputPath = "thread_timings.csv"`, and the vector is empty. -/
def initState : GlobalState :=
  { runId := 0, numThreads := 0, runCounter := 0, label := ""
    outputPath := "thread_timings.csv", samples := [] }

/-- Environment describing the output file at the moment `endRun` runs:
`existing` is the file's current content as a list of lines (`none` if the
file does not exist, `some []` if it exists and is empty); `readOpenOk`
says whether `fopen(path, "r")` succeeds given the file exists;
`appendOpenOk` says whether `fopen(path, "a")` succeeds. -/
structure FileEnv where
  existing : Option (List String)
  readOpenOk : Bool
  appendOpenOk : Bool
  deriving DecidableEq

/-- Embeds `fileHasContent`: `fopen(path,"r")` fails (`none`, or read
denied) ⇒ `false`; otherwise `true` iff the first `fgetc` is not `EOF`,
i.e. iff the file has at least one byte (a nonempty line list). -/
def fileHasContent (env : FileEnv) : Bool :=
  match env.existing with
  | none => false
  | some content => env.readOpenOk && !content.isEmpty

/-- Embeds `setOutputPath`. -/
def setOutputPath (s : GlobalState) (path : String) : GlobalState :=
  { s with outputPath := path }

/-- Embeds `setRunLabel`. -/
def setRunLabel (s : GlobalState) (label : String) : GlobalState :=
  { s with label := label }

/-- Embeds `beginRun`: clears the sample buffer, stores the thread count,
and sets `runId` to the pre-incremented `runCounter`. -/
def beginRun (s : GlobalState) (numThreads : Int) : GlobalState :=
  { s with samples := []
           numThreads := numThreads
           runCounter := s.runCounter + 1
           runId := s.runCounter + 1 }

/-- The sample built inside `recordSample` from its three arguments. -/
def mkSample (threadId : Int) (startSeconds endSeconds : ℚ) : Sample :=
  { threadId := threadId
    startMs := startSeconds * 1000
    endMs := endSeconds * 1000
    durationMs := (endSeconds - startSeconds) * 1000 }

/-- Embeds `recordSample`: appends the converted sample to the buffer
(`push_back`, so insertion order is call order). -/
def recordSample (s : GlobalState) (threadId : Int)
    (startSeconds endSeconds : ℚ) : GlobalState :=
  { s with samples := s.samples ++ [mkSample threadId startSeconds endSeconds] }

/-- Left-pads a numeral string with zeros to the given width. -/
def padZeros (s : String) (n : Nat) : String :=
  String.mk (List.replicate (n - s.length) '0') ++ s

/-- Embeds `%.6f` printf formatting of a (rational-embedded) double:
the value rounded to six decimal places, with exactly six fractional
digits printed.  The scaled value `⌊q * 10^6 + 1/2⌋` is computed by
integer floor-division on the numerator and denominator so that it
kernel-reduces. -/
def formatQ6 (q : ℚ) : String :=
  let scaled : Int := (2 * q.num * 1000000 + (q.den : Int)).fdiv (2 * (q.den : Int))
  let sign : String := if scaled < 0 then "-" else ""
  let m : Nat := scaled.natAbs
  sign ++ toString (m / 1000000) ++ "." ++ padZeros (toString (m % 1000000)) 6

/-- The fixed CSV header line written by `endRun` (without the trailing
newline; file content is modelled as a list of lines). -/
def headerLine : String :=
  "run_id,label,num_threads,thread_id,start_ms,end_ms,duration_ms"

/-- One CSV data row, embedding the
`"%d,%s,%d,%d,%.6f,%.6f,%.6f\n"` fprintf of `endRun`. -/
def rowLine (runId : Int) (label : String) (numThreads : Int)
    (smp : Sample) : String :=
  toString runId ++ "," ++ label ++ "," ++ toString numThreads ++ "," ++
    toString smp.threadId ++ "," ++ formatQ6 smp.startMs ++ "," ++
    formatQ6 smp.endMs ++ "," ++ formatQ6 smp.durationMs

/-- Observable outcome of one `endRun` call: the recorder state after the
call, whether the header was written, the data rows appended (in order),
whether `perror` was invoked, and the output file's content afterwards. -/
structure EndRunEffect where
  state : GlobalState
  headerWritten : Bool
  rowsWritten : List String
  errorReported : Bool
  fileAfter : Option (List String)
  deriving DecidableEq

/-- Embeds `endRun`.  Empty buffer: return at once, file untouched.
Otherwise snapshot buffer/label/runId/numThreads, check `fileHasContent`,
open for append (which creates a missing file); on open failure `perror`
and return; else write the header iff the file had no content, then one
row per snapshotted sample, using the snapshot values throughout. -/
def endRun (s : GlobalState) (env : FileEnv) : EndRunEffect :=
  if s.samples.isEmpty then
    { state := s, headerWritten := false, rowsWritten := []
      errorReported := false, fileAfter := env.existing }
  else
    let needHeader : Bool := !fileHasContent env
    if !env.appendOpenOk then
      { state := s, headerWritten := false, rowsWritten := []
        errorReported := true, fileAfter := env.existing }
    else
      let rows := s.samples.map (rowLine s.runId s.label s.numThreads)
      { state := s, headerWritten := needHeader, rowsWritten := rows
        errorReported := false
        fileAfter := some ((env.existing.getD []) ++
          (if needHeader then [headerLine] else []) ++ rows) }

/-- One external call into the module, for reasoning about traces.
An `endRun` call carries the file environment it observes. -/
inductive Op where
  | setOutputPath (path : String)
  | setRunLabel (label : String)
  | beginRun (numThreads : Int)
  | recordSample (threadId : Int) (startSeconds endSeconds : ℚ)
  | endRun (env : FileEnv)
  deriving DecidableEq

/-- State transition of one call (the state part of its effect). -/
def applyOp (s : GlobalState) : Op → GlobalState
  | Op.setOutputPath path => setOutputPath s path
  | Op.setRunLabel label => setRunLabel s label
  | Op.beginRun numThreads => beginRun s numThreads
  | Op.recordSample threadId a b => recordSample s threadId a b
  | Op.endRun env => (endRun s env).state

/-- State after a whole trace of calls. -/
def applyOps (s : GlobalState) (ops : List Op) : GlobalState :=
  ops.foldl applyOp s

/-- Number of `beginRun` calls in a trace. -/
def countBeginRuns (ops : List Op) : Nat :=
  ops.countP (fun op => match op with | Op.beginRun _ => true | _ => false)

/-- Folds `recordSample` over a list of `(threadId, start, end)` calls. -/
def recordAll (s : GlobalState) (calls : List (Int × ℚ × ℚ)) : GlobalState :=
  calls.foldl (fun st c => recordSample st c.1 c.2.1 c.2.2) s

/-! ### IEEE-754 binary64 rounding model

The C++ stores `double`s, so `startSeconds * 1000.0`,
`endSeconds * 1000.0` and `(endSeconds - startSeconds) * 1000.0` are each
rounded to 53 significant bits.  The following executable model computes
that rounding exactly on rationals. -/

/-- Fuel-bounded helper for the binary length of a natural number. -/
def bitLenAux : Nat → Nat → Nat
  | 0, _ => 0
  | fuel + 1, n => if n = 0 then 0 else bitLenAux fuel (n / 2) + 1

/-- Number of binary digits of `n` (`0` for `0`). -/
def bitLen (n : Nat) : Nat := bitLenAux (n + 1) n

/-- Rounds the integer ratio `a / b` (for `b > 0`) to the nearest integer,
ties to even — the IEEE-754 default rounding. -/
def rhe (a b : Int) : Int :=
  let quot := a.fdiv b
  let rem := a - quot * b
  if 2 * rem < b then quot
  else if b < 2 * rem then quot + 1
  else if quot % 2 = 0 then quot else quot + 1

/-- Whether `(n / d) * 2 ^ k` reaches `2 ^ 52` (for `n, d > 0`); used to
select the binade so the rounded mantissa has 53 bits. -/
def scaledGe (n d : Nat) (k : Int) : Bool :=
  if 0 ≤ k then
    if d * 2 ^ 52 ≤ n * 2 ^ k.toNat then true else false
  else
    if d * 2 ^ 52 * 2 ^ (-k).toNat ≤ n then true else false

/-- Mantissa/exponent pair `(m, e)` of the IEEE-754 binary64 value nearest
to the rational `x` (round to nearest, ties to even), with value
`m * 2 ^ e` and `2 ^ 52 ≤ |m| ≤ 2 ^ 53` for `x ≠ 0`.  Exponent clamping
(overflow, subnormals) is not modelled; that is faithful for the
magnitudes this recorder handles.  All arithmetic is on the numerator and
denominator, so the function kernel-reduces. -/
def flM (x : ℚ) : Int × Int :=
  if x = 0 then (0, 0)
  else
    let n : Nat := x.num.natAbs
    let d : Nat := x.den
    let k : Int := 52 - ((bitLen n : Int) - (bitLen d : Int))
    let kk : Int := if scaledGe n d k then k else k + 1
    let num : Int := x.num * 2 ^ (max kk 0).toNat
    let den : Int := (d : Int) * 2 ^ (max (-kk) 0).toNat
    (rhe num den, -kk)

/-- The rational value of a mantissa/exponent pair. -/
def interpFP (p : Int × Int) : ℚ := (p.1 : ℚ) * (2 : ℚ) ^ p.2

/-- Rounding of a rational to the nearest IEEE-754 binary64 value: the
result of a `double` operation whose exact value is `x`. -/
def fl (x : ℚ) : ℚ := interpFP (flM x)

/-- The sample built inside `recordSample` with the source's `double`
arithmetic: each operation is the exact rational operation followed by
binary64 rounding (`startSeconds` and `endSeconds` arrive as `double`s
and are taken as given). -/
def mkSampleFP (threadId : Int) (startSeconds endSeconds : ℚ) : Sample :=
  { threadId := threadId
    startMs := fl (startSeconds * 1000)
    endMs := fl (endSeconds * 1000)
    durationMs := fl (fl (endSeconds - startSeconds) * 1000) }

/-- `recordSample` with the source's `double` arithmetic. -/
def recordSampleFP (s : GlobalState) (threadId : Int)
    (startSeconds endSeconds : ℚ) : GlobalState :=
  { s with samples := s.samples ++ [mkSampleFP threadId startSeconds endSeconds] }

/-! ### Helper lemmas -/

/-- `endRun` returns the recorder state it was given, on every path. -/
lemma endRun_state (s : GlobalState) (env : FileEnv) :
    (endRun s env).state = s := by
  unfold endRun
  split
  · rfl
  · split
    · rfl
    · rfl

/-- On the success path, the whole effect of `endRun` in one equation. -/
lemma endRun_success (s : GlobalState) (env : FileEnv)
    (hne : s.samples ≠ []) (happ : env.appendOpenOk = true) :
    endRun s env =
      { state := s
        headerWritten := !fileHasContent env
        rowsWritten := s.samples.map (rowLine s.runId s.label s.numThreads)
        errorReported := false
        fileAfter := some ((env.existing.getD []) ++
          (if !fileHasContent env then [headerLine] else []) ++
          s.samples.map (rowLine s.runId s.label s.numThreads)) } := by
  unfold endRun
  simp [List.isEmpty_iff, hne, happ]

/-- `runCounter` after a trace counts the `beginRun` calls in it. -/
lemma applyOps_runCounter (s : GlobalState) (ops : List Op) :
    (applyOps s ops).runCounter = s.runCounter + (countBeginRuns ops : Int) := by
  induction ops generalizing s with
  | nil => simp [applyOps, countBeginRuns]
  | cons op rest ih =>
    have hstep : applyOps s (op :: rest) = applyOps (applyOp s op) rest := rfl
    rw [hstep, ih]
    cases op <;>
      simp [applyOp, setOutputPath, setRunLabel, beginRun, recordSample,
        endRun_state, countBeginRuns, List.countP_cons]
    ring

/-- Samples accumulated by a batch of `recordSample` calls, in call order. -/
lemma recordAll_samples (s : GlobalState) (calls : List (Int × ℚ × ℚ)) :
    (recordAll s calls).samples =
      s.samples ++ calls.map (fun c => mkSample c.1 c.2.1 c.2.2) := by
  induction calls generalizing s with
  | nil => simp [recordAll]
  | cons c rest ih =>
    have hstep : recordAll s (c :: rest) = recordAll (recordSample s c.1 c.2.1 c.2.2) rest := rfl
    rw [hstep, ih]
    simp [recordSample]

/-- `recordAll` changes no field but the sample buffer. -/
lemma recordAll_fields (s : GlobalState) (calls : List (Int × ℚ × ℚ)) :
    (recordAll s calls).runId = s.runId ∧
    (recordAll s calls).numThreads = s.numThreads ∧
    (recordAll s calls).label = s.label := by
  induction calls generalizing s with
  | nil => exact ⟨rfl, rfl, rfl⟩
  | cons c rest ih =>
    have hstep : recordAll s (c :: rest) = recordAll (recordSample s c.1 c.2.1 c.2.2) rest := rfl
    rw [hstep]
    simpa [recordSample] using ih (recordSample s c.1 c.2.1 c.2.2)

/-- Decimal digit characters are not `'r'`. -/
lemma digitChar_ne_r (n : Nat) (h : n < 10) : Nat.digitChar n ≠ 'r' := by
  interval_cases n <;> decide

/-- Every character produced by `Nat.toDigitsCore` in base 10 (over an
accumulator free of `'r'`) differs from `'r'`. -/
lemma toDigitsCore_ne_r (f : Nat) : ∀ (n : Nat) (ds : List Char),
    (∀ c ∈ ds, c ≠ 'r') → ∀ c ∈ Nat.toDigitsCore 10 f n ds, c ≠ 'r' := by
  induction f with
  | zero =>
    intro n ds hds c hc
    exact hds c hc
  | succ f ih =>
    intro n ds hds c hc
    rw [Nat.toDigitsCore] at hc
    have hdig : ∀ c ∈ Nat.digitChar (n % 10) :: ds, c ≠ 'r' := by
      intro c hc
      rcases List.mem_cons.mp hc with h1 | h1
      · exact h1 ▸ digitChar_ne_r (n % 10) (Nat.mod_lt n (by decide))
      · exact hds c h1
    by_cases h0 : n / 10 = 0
    · rw [if_pos h0] at hc
      exact hdig c hc
    · rw [if_neg h0] at hc
      exact ih (n / 10) (Nat.digitChar (n % 10) :: ds) hdig c hc

/-- The decimal representation of a natural number has no `'r'`. -/
lemma natRepr_ne_r (n : Nat) : ∀ c ∈ (Nat.repr n).data, c ≠ 'r' := by
  intro c hc
  exact toDigitsCore_ne_r (n + 1) n [] (by intro c hc; cases hc) c hc

/-- The decimal representation of an integer (`%d`) has no `'r'`. -/
lemma intToString_ne_r (i : Int) : ∀ c ∈ (toString i).data, c ≠ 'r' := by
  cases i with
  | ofNat m => exact natRepr_ne_r m
  | negSucc m =>
    intro c hc
    have hc' : c ∈ ('-' :: (Nat.repr (m + 1)).data) := hc
    rcases List.mem_cons.mp hc' with h1 | h1
    · rw [h1]; decide
    · exact natRepr_ne_r (m + 1) c h1

/-- A CSV data row is never the header line: its first character comes
from the `%d`-printed run id (a digit or minus sign, or the following
comma when that string is empty), while the header starts with `'r'`. -/
lemma rowLine_ne_headerLine (runId : Int) (label : String) (numThreads : Int)
    (smp : Sample) : rowLine runId label numThreads smp ≠ headerLine := by
  intro h
  have hd : (rowLine runId label numThreads smp).data = headerLine.data :=
    congrArg String.data h
  rw [rowLine] at hd
  simp only [String.data_append, List.append_assoc] at hd
  have hhead : headerLine.data.head? = some 'r' := rfl
  cases hts : (toString runId).data with
  | nil =>
    rw [hts, List.nil_append] at hd
    have : (some ',' : Option Char) = some 'r' := by
      rw [← hhead, ← hd]
      rfl
    simp at this
  | cons c cs =>
    rw [hts, List.cons_append] at hd
    have hc : (some c : Option Char) = some 'r' := by
      rw [← hhead, ← hd]
      rfl
    have : c = 'r' := by simpa using hc
    exact intToString_ne_r runId c (by rw [hts]; exact List.mem_cons_self c cs) this

/-- Evaluation principle for `fl`: a computed mantissa/exponent pair plus
its interpretation. -/
lemma fl_eval2 (x y : ℚ) (p : Int × Int) (h1 : flM x = p)
    (h2 : interpFP p = y) : fl x = y := by
  unfold fl
  rw [h1, h2]

/-- The decimal literal `1.0025` as a reduced fraction. -/
lemma ratLit_1_0025 : (1.0025 : ℚ) = Rat.mk' 401 400 (by decide) (by decide) := by
  rw [Rat.mk'_eq_divInt, Rat.divInt_eq_div]
  norm_num

/-- The binary64 value nearest to `1.0025` (slightly below it):
`2257429313219461 / 2^51`. -/
lemma fl_1_0025 : fl (1.0025 : ℚ) =
    Rat.mk' 2257429313219461 2251799813685248 (by decide) (by decide) := by
  rw [ratLit_1_0025]
  refine fl_eval2 _ _ (4514858626438922, -52) (by decide) ?_
  rw [Rat.mk'_eq_divInt, Rat.divInt_eq_div]
  unfold interpFP
  norm_num

/-- The sample stored for `recordSample(7, 1.0, 1.0025)` under `double`
arithmetic: `startMs = 1000` and `endMs = 1002.5` exactly, but
`durationMs = 703687441776625 / 2^48 = 2.4999999999999467…`. -/
lemma mkSampleFP_eval : mkSampleFP 7 1 (fl (1.0025 : ℚ)) =
    { threadId := 7
      startMs := Rat.mk' 1000 1 (by decide) (by decide)
      endMs := Rat.mk' 2005 2 (by decide) (by decide)
      durationMs := Rat.mk' 703687441776625 281474976710656
        (by decide) (by decide) } := by
  have hs : fl ((1 : ℚ) * 1000) = Rat.mk' 1000 1 (by decide) (by decide) := by
    have h1 : (1 : ℚ) * 1000 = Rat.mk' 1000 1 (by decide) (by decide) := by
      rw [Rat.mk'_eq_divInt, Rat.divInt_eq_div]
      norm_num
    rw [h1]
    refine fl_eval2 _ _ (8796093022208000, -43) (by decide) ?_
    rw [Rat.mk'_eq_divInt, Rat.divInt_eq_div]
    unfold interpFP
    norm_num
  have he : fl (fl (1.0025 : ℚ) * 1000) =
      Rat.mk' 2005 2 (by decide) (by decide) := by
    rw [fl_1_0025]
    have h1 : Rat.mk' 2257429313219461 2251799813685248
          (by decide) (by decide) * 1000 =
        Rat.mk' 282178664152432625 281474976710656 (by decide) (by decide) := by
      simp only [Rat.mk'_eq_divInt, Rat.divInt_eq_div]
      norm_num
    rw [h1]
    refine fl_eval2 _ _ (8818083254763520, -43) (by decide) ?_
    rw [Rat.mk'_eq_divInt, Rat.divInt_eq_div]
    unfold interpFP
    norm_num
  have hd : fl (fl (fl (1.0025 : ℚ) - 1) * 1000) =
      Rat.mk' 703687441776625 281474976710656 (by decide) (by decide) := by
    rw [fl_1_0025]
    have h1 : Rat.mk' 2257429313219461 2251799813685248
          (by decide) (by decide) - 1 =
        Rat.mk' 5629499534213 2251799813685248 (by decide) (by decide) := by
      simp only [Rat.mk'_eq_divInt, Rat.divInt_eq_div]
      norm_num
    rw [h1]
    have h2 : fl (Rat.mk' 5629499534213 2251799813685248
          (by decide) (by decide)) =
        Rat.mk' 5629499534213 2251799813685248 (by decide) (by decide) := by
      refine fl_eval2 _ _ (5764607523034112, -61) (by decide) ?_
      rw [Rat.mk'_eq_divInt, Rat.divInt_eq_div]
      unfold interpFP
      norm_num
    rw [h2]
    have h3 : Rat.mk' 5629499534213 2251799813685248
          (by decide) (by decide) * 1000 =
        Rat.mk' 703687441776625 281474976710656 (by decide) (by decide) := by
      simp only [Rat.mk'_eq_divInt, Rat.divInt_eq_div]
      norm_num
    rw [h3]
    refine fl_eval2 _ _ (5629499534213000, -51) (by decide) ?_
    rw [Rat.mk'_eq_divInt, Rat.divInt_eq_div]
    unfold interpFP
    norm_num
  unfold mkSampleFP
  rw [hs, he, hd]

/-! ### Claim theorems -/

/-- C1: for every sequence of `recordSample` calls made between one
`beginRun` call and the following `endRun` call, if the output file opens
successfully in `endRun`, the number of CSV data rows appended equals the
number of `recordSample` calls, one row per buffered sample in insertion
order. -/
theorem endRun_row_count (s : GlobalState) (numThreads : Int)
    (calls : List (Int × ℚ × ℚ)) (env : FileEnv)
    (happ : env.appendOpenOk = true) :
    (endRun (recordAll (beginRun s numThreads) calls) env).rowsWritten.length =
      calls.length := by
  have hs : (recordAll (beginRun s numThreads) calls).samples =
      calls.map (fun c => mkSample c.1 c.2.1 c.2.2) := by
    rw [recordAll_samples]
    simp [beginRun]
  by_cases hc : calls = []
  · subst hc
    unfold endRun
    simp [hs]
  · have hne : (recordAll (beginRun s numThreads) calls).samples ≠ [] := by
      rw [hs]
      simpa using hc
    rw [endRun_success _ _ hne happ]
    simp [hs]

/-- C1, witness: two `recordSample` calls between `beginRun` and a
successful `endRun` append exactly two data rows. -/
theorem endRun_row_count_witness :
    (FileEnv.mk none true true).appendOpenOk = true ∧
    (endRun (recordAll (beginRun initState 4) [(0, 0, 1), (1, 0, 1)])
        (FileEnv.mk none true true)).rowsWritten.length =
      ([(0, 0, 1), (1, 0, 1)] : List (Int × ℚ × ℚ)).length :=
  ⟨rfl, endRun_row_count initState 4 [(0, 0, 1), (1, 0, 1)]
    (FileEnv.mk none true true) rfl⟩

/-- C2: after any trace of calls, the `runId` stored by a further
`beginRun` equals the number of earlier `beginRun` calls plus one: it is
`1` at the first `beginRun` of the process, grows by exactly `1` at each
successive `beginRun`, and is never reused. -/
theorem runId_after_beginRun (ops : List Op) (numThreads : Int) :
    (applyOps initState (ops ++ [Op.beginRun numThreads])).runId =
      (countBeginRuns ops : Int) + 1 := by
  rw [applyOps, List.foldl_append]
  show (applyOp (applyOps initState ops) (Op.beginRun numThreads)).runId = _
  simp only [applyOp, beginRun]
  rw [applyOps_runCounter]
  simp [initState]

/-- C3, counterexample: with the source's `double` arithmetic, at the
claim's own input `startSeconds = 1.0`, `endSeconds = 1.0025` the stored
`durationMs` (exactly `2.4999999999999467…`) differs from
`endMs - startMs = 2.5`, and `endMs = 1002.5` differs from the exact
`endSeconds * 1000`; all three fields nevertheless print (`%.6f`) as the
row the claim shows. -/
theorem recordSample_conversion_counterexample :
    (mkSampleFP 7 1 (fl (1.0025 : ℚ))).durationMs ≠
      (mkSampleFP 7 1 (fl (1.0025 : ℚ))).endMs -
        (mkSampleFP 7 1 (fl (1.0025 : ℚ))).startMs ∧
    (mkSampleFP 7 1 (fl (1.0025 : ℚ))).endMs ≠ fl (1.0025 : ℚ) * 1000 ∧
    formatQ6 (mkSampleFP 7 1 (fl (1.0025 : ℚ))).startMs = "1000.000000" ∧
    formatQ6 (mkSampleFP 7 1 (fl (1.0025 : ℚ))).endMs = "1002.500000" ∧
    formatQ6 (mkSampleFP 7 1 (fl (1.0025 : ℚ))).durationMs = "2.500000" := by
  refine ⟨?_, ?_, ?_, ?_, ?_⟩
  · rw [mkSampleFP_eval]
    simp only [Rat.mk'_eq_divInt, Rat.divInt_eq_div]
    norm_num
  · rw [mkSampleFP_eval, fl_1_0025]
    simp only [Rat.mk'_eq_divInt, Rat.divInt_eq_div]
    norm_num
  · rw [mkSampleFP_eval]
    decide
  · rw [mkSampleFP_eval]
    decide
  · rw [mkSampleFP_eval]
    decide

/-- C3 (amended): `recordSample` stores `startSeconds * 1000`,
`endSeconds * 1000` and `(endSeconds - startSeconds) * 1000`, each rounded
once to binary64 at record time — `durationMs` comes from the seconds
difference, not from `endMs - startMs`, and in general differs from
`endMs - startMs` in the last bits; at `startSeconds = 1.0`,
`endSeconds = 1.0025` the stored fields still print (`%.6f`) as
`1000.000000`, `1002.500000` and `2.500000`. -/
theorem recordSample_conversion_fixed :
    (∀ (s : GlobalState) (threadId : Int) (startSeconds endSeconds : ℚ),
      (recordSampleFP s threadId startSeconds endSeconds).samples =
        s.samples ++ [mkSampleFP threadId startSeconds endSeconds] ∧
      (mkSampleFP threadId startSeconds endSeconds).startMs =
        fl (startSeconds * 1000) ∧
      (mkSampleFP threadId startSeconds endSeconds).endMs =
        fl (endSeconds * 1000) ∧
      (mkSampleFP threadId startSeconds endSeconds).durationMs =
        fl (fl (endSeconds - startSeconds) * 1000)) ∧
    formatQ6 (mkSampleFP 7 1 (fl (1.0025 : ℚ))).startMs = "1000.000000" ∧
    formatQ6 (mkSampleFP 7 1 (fl (1.0025 : ℚ))).endMs = "1002.500000" ∧
    formatQ6 (mkSampleFP 7 1 (fl (1.0025 : ℚ))).durationMs = "2.500000" := by
  refine ⟨fun s t a b => ⟨rfl, rfl, rfl, rfl⟩, ?_, ?_, ?_⟩
  · rw [mkSampleFP_eval]
    decide
  · rw [mkSampleFP_eval]
    decide
  · rw [mkSampleFP_eval]
    decide

/-- C4: `endRun` on an empty sample buffer performs no file-system write:
the file content is exactly what it was (in particular a nonexistent file
is not created), no header is written, and no error is reported. -/
theorem endRun_empty_buffer (s : GlobalState) (env : FileEnv)
    (h : s.samples = []) :
    endRun s env =
      { state := s, headerWritten := false, rowsWritten := []
        errorReported := false, fileAfter := env.existing } := by
  unfold endRun
  simp [h]

/-- C4, witness: flushing the initial (empty) recorder against a
nonexistent file leaves the file nonexistent and reports nothing. -/
theorem endRun_empty_buffer_witness :
    initState.samples = [] ∧
    endRun initState (FileEnv.mk none true true) =
      { state := initState, headerWritten := false, rowsWritten := []
        errorReported := false, fileAfter := none } :=
  ⟨rfl, endRun_empty_buffer initState (FileEnv.mk none true true) rfl⟩

/-- C5: if opening the output file for append fails with a non-empty
buffer, `endRun` reports the error (`perror`), writes nothing, and returns
with the recorder state exactly as it was: the snapshot taken for the
flush is discarded and nothing is pushed back into the shared buffer. -/
theorem endRun_open_failure (s : GlobalState) (env : FileEnv)
    (hne : s.samples ≠ []) (hfail : env.appendOpenOk = false) :
    endRun s env =
      { state := s, headerWritten := false, rowsWritten := []
        errorReported := true, fileAfter := env.existing } := by
  unfold endRun
  simp [List.isEmpty_iff, hne, hfail]

/-- C5, witness: a failed append open on a one-sample buffer reports the
error and leaves both the file and the state untouched. -/
theorem endRun_open_failure_witness :
    (recordSample initState 1 0 1).samples ≠ [] ∧
    (FileEnv.mk (some ["x"]) true false).appendOpenOk = false ∧
    endRun (recordSample initState 1 0 1) (FileEnv.mk (some ["x"]) true false) =
      { state := recordSample initState 1 0 1, headerWritten := false
        rowsWritten := [], errorReported := true, fileAfter := some ["x"] } :=
  ⟨by decide, rfl,
    endRun_open_failure (recordSample initState 1 0 1)
      (FileEnv.mk (some ["x"]) true false) (by decide) rfl⟩

/-- C6: a successful `endRun` writes the fixed CSV header exactly when the
output file had no byte content beforehand: a fresh (nonexistent or empty)
path receives exactly one header line followed by one data line per
sample, and a flush onto a non-empty file appends only data lines. -/
theorem endRun_header_policy (s : GlobalState) (env : FileEnv)
    (hne : s.samples ≠ []) (hread : env.readOpenOk = true)
    (happ : env.appendOpenOk = true) :
    ((endRun s env).headerWritten = true ↔
      (env.existing = none ∨ env.existing = some [])) ∧
    ((env.existing = none ∨ env.existing = some []) →
      (endRun s env).fileAfter =
        some (headerLine :: (endRun s env).rowsWritten) ∧
      headerLine ∉ (endRun s env).rowsWritten ∧
      (endRun s env).rowsWritten.length = s.samples.length) ∧
    (∀ content, env.existing = some content → content ≠ [] →
      (endRun s env).headerWritten = false ∧
      (endRun s env).fileAfter = some (content ++ (endRun s env).rowsWritten)) := by
  have hnotin : headerLine ∉ s.samples.map (rowLine s.runId s.label s.numThreads) := by
    intro hmem
    obtain ⟨smp, _, heq⟩ := List.mem_map.mp hmem
    exact rowLine_ne_headerLine s.runId s.label s.numThreads smp heq
  rcases henv : env.existing with _ | content
  · have hfc : fileHasContent env = false := by
      simp [fileHasContent, henv]
    rw [endRun_success s env hne happ]
    simp [hfc, henv, hnotin]
  · by_cases hc : content = []
    · subst hc
      have hfc : fileHasContent env = false := by
        simp [fileHasContent, henv]
      rw [endRun_success s env hne happ]
      simp [hfc, henv, hnotin]
    · have hfc : fileHasContent env = true := by
        simp [fileHasContent, henv, hread, List.isEmpty_iff, hc]
      rw [endRun_success s env hne happ]
      simp [hfc, henv, hc]

/-- C6, witness: one sample flushed to a nonexistent file yields the
header followed by that one data row. -/
theorem endRun_header_policy_witness :
    (recordSample initState 1 0 1).samples ≠ [] ∧
    (FileEnv.mk none true true).readOpenOk = true ∧
    (FileEnv.mk none true true).appendOpenOk = true ∧
    (((endRun (recordSample initState 1 0 1)
        (FileEnv.mk none true true)).headerWritten = true ↔
      ((FileEnv.mk none true true).existing = none ∨
        (FileEnv.mk none true true).existing = some [])) ∧
    (((FileEnv.mk none true true).existing = none ∨
        (FileEnv.mk none true true).existing = some []) →
      (endRun (recordSample initState 1 0 1)
          (FileEnv.mk none true true)).fileAfter =
        some (headerLine :: (endRun (recordSample initState 1 0 1)
          (FileEnv.mk none true true)).rowsWritten) ∧
      headerLine ∉ (endRun (recordSample initState 1 0 1)
          (FileEnv.mk none true true)).rowsWritten ∧
      (endRun (recordSample initState 1 0 1)
          (FileEnv.mk none true true)).rowsWritten.length =
        (recordSample initState 1 0 1).samples.length) ∧
    (∀ content, (FileEnv.mk none true true).existing = some content →
      content ≠ [] →
      (endRun (recordSample initState 1 0 1)
          (FileEnv.mk none true true)).headerWritten = false ∧
      (endRun (recordSample initState 1 0 1)
          (FileEnv.mk none true true)).fileAfter =
        some (content ++ (endRun (recordSample initState 1 0 1)
          (FileEnv.mk none true true)).rowsWritten))) :=
  ⟨by decide, rfl, rfl,
    endRun_header_policy (recordSample initState 1 0 1)
      (FileEnv.mk none true true) (by decide) rfl rfl⟩

/-- C7: every CSV row of a run carries the label current when `endRun`
executes: with the label set to `labelA` before the first `recordSample`
and changed to `labelB` before the second, both rows of the flush show
`labelB` (and the `runId`/`numThreads` stored by `beginRun`). -/
theorem endRun_label_snapshot (s : GlobalState) (env : FileEnv)
    (numThreads threadId1 threadId2 : Int) (a1 b1 a2 b2 : ℚ)
    (labelA labelB : String) (happ : env.appendOpenOk = true) :
    (endRun
      (recordSample
        (setRunLabel
          (recordSample (setRunLabel (beginRun s numThreads) labelA)
            threadId1 a1 b1)
          labelB)
        threadId2 a2 b2)
      env).rowsWritten =
    [rowLine (s.runCounter + 1) labelB numThreads (mkSample threadId1 a1 b1),
     rowLine (s.runCounter + 1) labelB numThreads (mkSample threadId2 a2 b2)] := by
  have hstate : recordSample
      (setRunLabel
        (recordSample (setRunLabel (beginRun s numThreads) labelA)
          threadId1 a1 b1)
        labelB)
      threadId2 a2 b2 =
      { runId := s.runCounter + 1, numThreads := numThreads
        runCounter := s.runCounter + 1, label := labelB
        outputPath := s.outputPath
        samples := [mkSample threadId1 a1 b1, mkSample threadId2 a2 b2] } := by
    simp [recordSample, setRunLabel, beginRun]
  rw [hstate, endRun_success _ env (by simp) happ]
  simp

/-- C7, witness: the two rows of a concrete relabelled run both show the
label in effect at `endRun` time. -/
theorem endRun_label_snapshot_witness :
    (FileEnv.mk none true true).appendOpenOk = true ∧
    (endRun
      (recordSample
        (setRunLabel
          (recordSample (setRunLabel (beginRun initState 2) "A") 0 0 1)
          "B")
        1 0 1)
      (FileEnv.mk none true true)).rowsWritten =
    [rowLine (initState.runCounter + 1) "B" 2 (mkSample 0 0 1),
     rowLine (initState.runCounter + 1) "B" 2 (mkSample 1 0 1)] :=
  ⟨rfl, endRun_label_snapshot initState (FileEnv.mk none true true)
    2 0 1 0 1 0 1 "A" "B" rfl⟩

/-- C8: `endRun` never clears the live buffer — only `beginRun` does — so
a second `endRun` with no intervening `beginRun` re-flushes the same rows,
appending them to the file a second time. -/
theorem endRun_buffer_not_cleared (s : GlobalState) (env : FileEnv)
    (numThreads : Int) (hne : s.samples ≠ []) (happ : env.appendOpenOk = true) :
    (endRun s env).state.samples = s.samples ∧
    (beginRun s numThreads).samples = [] ∧
    (endRun (endRun s env).state
        (FileEnv.mk (endRun s env).fileAfter true true)).rowsWritten =
      (endRun s env).rowsWritten ∧
    (endRun (endRun s env).state
        (FileEnv.mk (endRun s env).fileAfter true true)).fileAfter =
      some ((endRun s env).fileAfter.getD [] ++ (endRun s env).rowsWritten) := by
  obtain ⟨x, xs, hsx⟩ := List.exists_cons_of_ne_nil hne
  have hst : (endRun s env).state = s := endRun_state s env
  have hrows : (endRun s env).rowsWritten =
      s.samples.map (rowLine s.runId s.label s.numThreads) := by
    rw [endRun_success s env hne happ]
  have hfa : (endRun s env).fileAfter =
      some ((env.existing.getD []) ++
        (if !fileHasContent env then [headerLine] else []) ++
        s.samples.map (rowLine s.runId s.label s.numThreads)) := by
    rw [endRun_success s env hne happ]
  refine ⟨by rw [hst], by simp [beginRun], ?_, ?_⟩
  · rw [hst, hfa, hrows, endRun_success s _ hne rfl]
  · rw [hst, hfa, hrows, endRun_success s _ hne rfl]
    simp [fileHasContent, List.isEmpty_iff, hsx]

/-- C8, witness: flushing a one-sample buffer twice against the same file
appends the identical data row a second time. -/
theorem endRun_buffer_not_cleared_witness :
    (recordSample initState 1 0 1).samples ≠ [] ∧
    (FileEnv.mk none true true).appendOpenOk = true ∧
    ((endRun (recordSample initState 1 0 1)
        (FileEnv.mk none true true)).state.samples =
      (recordSample initState 1 0 1).samples ∧
    (beginRun (recordSample initState 1 0 1) 3).samples = [] ∧
    (endRun (endRun (recordSample initState 1 0 1)
          (FileEnv.mk none true true)).state
        (FileEnv.mk (endRun (recordSample initState 1 0 1)
          (FileEnv.mk none true true)).fileAfter true true)).rowsWritten =
      (endRun (recordSample initState 1 0 1)
        (FileEnv.mk none true true)).rowsWritten ∧
    (endRun (endRun (recordSample initState 1 0 1)
          (FileEnv.mk none true true)).state
        (FileEnv.mk (endRun (recordSample initState 1 0 1)
          (FileEnv.mk none true true)).fileAfter true true)).fileAfter =
      some ((endRun (recordSample initState 1 0 1)
          (FileEnv.mk none true true)).fileAfter.getD [] ++
        (endRun (recordSample initState 1 0 1)
          (FileEnv.mk none true true)).rowsWritten)) :=
  ⟨by decide, rfl,
    endRun_buffer_not_cleared (recordSample initState 1 0 1)
      (FileEnv.mk none true true) 3 (by decide) rfl⟩

/-- C9: when the output file exists with content but the read-mode open
fails, `fileHasContent` returns `false`, so a successful append-mode flush
writes the header again into the non-empty file — a duplicate header if
one is already present. -/
theorem fileHasContent_unreadable (s : GlobalState) (content : List String)
    (hne : s.samples ≠ []) (_hcontent : content ≠ []) :
    fileHasContent (FileEnv.mk (some content) false true) = false ∧
    (endRun s (FileEnv.mk (some content) false true)).headerWritten = true ∧
    (endRun s (FileEnv.mk (some content) false true)).fileAfter =
      some (content ++ headerLine ::
        (endRun s (FileEnv.mk (some content) false true)).rowsWritten) ∧
    (headerLine ∈ content →
      2 ≤ (content ++ headerLine ::
        (endRun s (FileEnv.mk (some content) false true)).rowsWritten).count
          headerLine) := by
  have hfc : fileHasContent (FileEnv.mk (some content) false true) = false := rfl
  rw [endRun_success s (FileEnv.mk (some content) false true) hne rfl]
  refine ⟨hfc, by simp [hfc], by simp [hfc], ?_⟩
  intro hmem
  have h1 : 0 < List.count headerLine content := List.count_pos_iff.mpr hmem
  rw [List.count_append, List.count_cons_self]
  omega

/-- C9, witness: a file already holding just the header, unreadable in
read mode, receives a second header from the flush. -/
theorem fileHasContent_unreadable_witness :
    (recordSample initState 1 0 1).samples ≠ [] ∧
    ([headerLine] : List String) ≠ [] ∧
    (fileHasContent (FileEnv.mk (some [headerLine]) false true) = false ∧
    (endRun (recordSample initState 1 0 1)
        (FileEnv.mk (some [headerLine]) false true)).headerWritten = true ∧
    (endRun (recordSample initState 1 0 1)
        (FileEnv.mk (some [headerLine]) false true)).fileAfter =
      some ([headerLine] ++ headerLine ::
        (endRun (recordSample initState 1 0 1)
          (FileEnv.mk (some [headerLine]) false true)).rowsWritten) ∧
    (headerLine ∈ [headerLine] →
      2 ≤ ([headerLine] ++ headerLine ::
        (endRun (recordSample initState 1 0 1)
          (FileEnv.mk (some [headerLine]) false true)).rowsWritten).count
          headerLine)) :=
  ⟨by decide, by decide,
    fileHasContent_unreadable (recordSample initState 1 0 1) [headerLine]
      (by decide) (by decide)⟩

/-- C10: `endRun` modifies no field of the recorder state on any path:
`runId`, `numThreads`, `runCounter`, `label`, `outputPath` and the sample
buffer are exactly as before the call. -/
theorem endRun_preserves_all_fields (s : GlobalState) (env : FileEnv) :
    (endRun s env).state.runId = s.runId ∧
    (endRun s env).state.numThreads = s.numThreads ∧
    (endRun s env).state.runCounter = s.runCounter ∧
    (endRun s env).state.label = s.label ∧
    (endRun s env).state.outputPath = s.outputPath ∧
    (endRun s env).state.samples = s.samples := by
  rw [endRun_state]
  exact ⟨rfl, rfl, rfl, rfl, rfl, rfl⟩

end ThreadTiming
